import Mathlib

/-!
Verification of the polymorphic, self-describing serialization core of the
demo-pydantic-generic-serialization repository.

The embedding translates the two source modules:

* `src/demo/serialization.py` — the four serialization operations
  (`serialize_model_to_dict`, `serialize_model_to_json_str`,
  `deserialize_model_from_dict`, `deserialize_model_from_json`) and the
  mode-aware validation entry point (`validate_model`);
* `src/demo/models.py` — the concrete model types `User`, `Location`,
  `Address` (the generic `Update` envelope is treated through the import
  analysis of the models module).

Modelling conventions:

* Python dictionaries become ordered association lists with unique keys;
  `dict.pop` and item assignment are translated by `dictPop` and `dictSet`.
* Python exceptions become an explicit `PyError` sum; raising is returning
  `Except.error`.  Mutation of a caller-supplied dictionary is made
  observable by a state-passing variant of `deserialize_model_from_dict`
  that also returns the final state of the dictionary object the caller
  passed in.
* A pydantic `datetime` field is represented by its canonical ISO-8601
  text, and a `Decimal` field by its exact decimal text: the JSON-mode dump
  emits exactly that text and validation parses it back, so equality of the
  represented values agrees with equality of the texts.  A `float` field is
  represented by the sign / integer part / fractional digits of its
  decimal representation (exponent notation is outside the modelled range).
* The standard-library `json.dumps` / `json.loads` pair is modelled by a
  concrete printer and a concrete recursive-descent reader over the same
  `JValue` tree type, with the separator and escaping conventions of
  `json.dumps` (ASCII output for the structural escapes; non-ASCII
  characters are kept literal rather than escaped, which parses back to
  the same string either way).
* `importlib.import_module` together with `getattr` is modelled by a
  lookup in an explicit import environment: a finite map from module names
  to module namespaces, a module namespace being a finite map from
  attribute names to classes.  The environment is a parameter, standing
  for the importable-module state of the running process.
-/

namespace Demo

/-- JSON-compatible values: the attribute-tree universe.  Numbers carry the
sign, integer part and fractional digits of their decimal representation,
which is what the JSON text itself holds. -/
inductive JValue where
  | jnull : JValue
  | jbool (b : Bool) : JValue
  | jnum (neg : Bool) (ip : Nat) (frac : List (Fin 10)) : JValue
  | jstr (s : String) : JValue
  | jarr (elems : List JValue) : JValue
  | jobj (fields : List (String × JValue)) : JValue

/-- An attribute tree: a Python `dict` with string keys, modelled as an
ordered association list with unique keys. -/
abbrev Dict := List (String × JValue)

/-- Python `d[k]` read access (`None` is `KeyError`). -/
def dictGet (d : Dict) (k : String) : Option JValue :=
  match d with
  | [] => none
  | (k', v) :: rest => if k' = k then some v else dictGet rest k

/-- Python `d[k] = v` item assignment: replace in place when the key is
present, append otherwise. -/
def dictSet (d : Dict) (k : String) (v : JValue) : Dict :=
  match d with
  | [] => [(k, v)]
  | (k', v') :: rest =>
      if k' = k then (k', v) :: rest else (k', v') :: dictSet rest k v

/-- Python `d.pop(k)` with no default: remove the entry and return its value
together with the remaining dictionary, or `none` (a `KeyError`) when the
key is absent. -/
def dictPop (d : Dict) (k : String) : Option (JValue × Dict) :=
  match d with
  | [] => none
  | (k', v) :: rest =>
      if k' = k then some (v, rest)
      else match dictPop rest k with
           | none => none
           | some (x, rest') => some (x, (k', v) :: rest')

/-- A Python `float` value, represented by the sign, integer part and
fractional digits of its decimal representation (`1.75` is
`⟨false, 1, [7, 5]⟩`). -/
structure PyFloat where
  neg : Bool
  ip : Nat
  frac : List (Fin 10)
deriving DecidableEq

/-- The `User` model of `models.py`: `name : str`,
`date_of_birth : datetime` (represented by its canonical ISO-8601 text),
`height : float`. -/
structure User where
  name : String
  date_of_birth : String
  height : PyFloat
deriving DecidableEq

/-- The `Location` model of `models.py`: `name : str` and two `Decimal`
fields, each represented by its exact decimal text. -/
structure Location where
  name : String
  latitude : String
  longitude : String
deriving DecidableEq

/-- The `Address` model of `models.py`: `street : str`, `city : str`. -/
structure Address where
  street : String
  city : String
deriving DecidableEq

/-- A model value: an instance of one of the concrete pydantic model types
defined in `models.py`. -/
inductive Model where
  | user (u : User)
  | location (l : Location)
  | address (a : Address)
deriving DecidableEq

/-- `model.model_dump(mode=json)`: the JSON-mode field dump of a model.
Datetimes dump to their ISO-8601 text, decimals to their exact decimal
text (as JSON strings, not numbers), floats to JSON numbers. -/
def Model.model_dump : Model → Dict
  | .user u =>
      [("name", .jstr u.name),
       ("date_of_birth", .jstr u.date_of_birth),
       ("height", .jnum u.height.neg u.height.ip u.height.frac)]
  | .location l =>
      [("name", .jstr l.name),
       ("latitude", .jstr l.latitude),
       ("longitude", .jstr l.longitude)]
  | .address a =>
      [("street", .jstr a.street),
       ("city", .jstr a.city)]

/-- `model.__class__.__module__`: all three concrete model classes are
defined in the `demo.models` module. -/
def Model.dunderModule : Model → String := fun _ => "demo.models"

/-- `model.__class__.__qualname__`. -/
def Model.dunderQualname : Model → String
  | .user _ => "User"
  | .location _ => "Location"
  | .address _ => "Address"

/-- A model class object: the runtime class retrieved from a module by
`getattr`. -/
inductive ModelClass where
  | userClass
  | locationClass
  | addressClass
deriving DecidableEq

/-- The class of a model value. -/
def Model.cls : Model → ModelClass
  | .user _ => .userClass
  | .location _ => .locationClass
  | .address _ => .addressClass

/-- The Python exception universe needed by the embedding.  The first group
are the builtin exceptions the source code can actually raise; the last
two are modelled from the spec: dedicated `MissingMetadataError` and
`UnknownTypeError` classes named by the error taxonomy of the spec, which
the source never defines nor raises.  Distinct exception classes are
distinct values. -/
inductive PyError where
  | keyError (key : String)
  | moduleNotFoundError (moduleName : String)
  | attributeError (attrName : String)
  | typeError (msg : String)
  | validationError (msg : String)
  | valueError (msg : String)
  | jsonDecodeError (msg : String)
  | unicodeDecodeError (msg : String)
  | importError (name : String)
  | missingMetadataError
  | unknownTypeError
deriving DecidableEq

/-- A module namespace: attribute names mapped to class objects. -/
abbrev PyModule := List (String × ModelClass)

/-- The importable-module state of the process: module names mapped to
module namespaces. -/
abbrev ImportEnv := List (String × PyModule)

/-- Association lookup used for module and attribute resolution. -/
def assocFind {α : Type} (l : List (String × α)) (k : String) : Option α :=
  match l with
  | [] => none
  | (k', v) :: rest => if k' = k then some v else assocFind rest k

/-- `importlib.import_module(name)`: resolve a module name in the import
environment; an unknown name raises `ModuleNotFoundError`. -/
def import_module (env : ImportEnv) (name : String) : Except PyError PyModule :=
  match assocFind env name with
  | some md => .ok md
  | none => .error (.moduleNotFoundError name)

/-- `getattr(module, name)`: retrieve an attribute of a module namespace;
a missing attribute raises `AttributeError`. -/
def py_getattr (md : PyModule) (name : String) : Except PyError ModelClass :=
  match assocFind md name with
  | some c => .ok c
  | none => .error (.attributeError name)

/-- `cls.model_validate(dct)`: pydantic validation of an attribute tree
against a concrete model class.  Each declared field is looked up by name
and must carry the JSON shape of its annotation (extra keys are ignored,
as by the default pydantic model config); otherwise validation fails. -/
def ModelClass.model_validate : ModelClass → Dict → Except PyError Model
  | .userClass, d =>
      match dictGet d "name", dictGet d "date_of_birth", dictGet d "height" with
      | some (.jstr n), some (.jstr dob), some (.jnum neg ip frac) =>
          .ok (.user ⟨n, dob, ⟨neg, ip, frac⟩⟩)
      | _, _, _ => .error (.validationError "User")
  | .locationClass, d =>
      match dictGet d "name", dictGet d "latitude", dictGet d "longitude" with
      | some (.jstr n), some (.jstr lat), some (.jstr lon) =>
          .ok (.location ⟨n, lat, lon⟩)
      | _, _, _ => .error (.validationError "Location")
  | .addressClass, d =>
      match dictGet d "street", dictGet d "city" with
      | some (.jstr st), some (.jstr c) => .ok (.address ⟨st, c⟩)
      | _, _ => .error (.validationError "Address")

/-- `serialize_model_to_dict` (serialization.py, lines 7 to 39): dump the
model in JSON mode, then assign the two reserved metadata keys at the root
of the dictionary. -/
def serialize_model_to_dict (m : Model) : Dict :=
  let dct := m.model_dump
  let dct := dictSet dct "__module__" (.jstr m.dunderModule)
  dictSet dct "__qualname__" (.jstr m.dunderQualname)

/-- `deserialize_model_from_dict` (serialization.py, lines 58 to 74), with
the mutation of the caller-supplied dictionary made observable: the second
component of the result is the final state of the dictionary object the
caller passed in.  The source pops `__module__` and then `__qualname__`
from that object, imports the module, retrieves the class and validates
the remaining fields. -/
def deserialize_model_from_dict_st (env : ImportEnv) (dct : Dict) :
    Except PyError Model × Dict :=
  match dictPop dct "__module__" with
  | none => (.error (.keyError "__module__"), dct)
  | some (moduleVal, dct1) =>
      match dictPop dct1 "__qualname__" with
      | none => (.error (.keyError "__qualname__"), dct1)
      | some (qualnameVal, dct2) =>
          match moduleVal, qualnameVal with
          | .jstr moduleName, .jstr qualnameText =>
              (match import_module env moduleName with
               | .error e => .error e
               | .ok md =>
                   match py_getattr md qualnameText with
                   | .error e => .error e
                   | .ok cls => cls.model_validate dct2,
               dct2)
          | _, _ => (.error (.typeError "argument should be a str"), dct2)

/-- The value computed by `deserialize_model_from_dict`: the first
component of the state-passing translation. -/
def deserialize_model_from_dict (env : ImportEnv) (dct : Dict) :
    Except PyError Model :=
  (deserialize_model_from_dict_st env dct).1

/-! ## The JSON text codec

A concrete model of the standard-library pair `json.dumps` / `json.loads`:
a printer with the default separators of `json.dumps` (`", "` between
items, `": "` after a key) and a recursive-descent reader.  The reader
takes a depth fuel; the member loops take a local step bound derived from
the input length, so a top-level call needs fuel proportional only to the
nesting depth of the document. -/

/-- The decimal digit character for a digit value. -/
def digChar (d : Nat) : Char := Char.ofNat (48 + d)

/-- Decimal digit characters of a natural number, most significant digit
first. -/
def natChars (n : Nat) : List Char :=
  if n = 0 then ['0'] else (Nat.digits 10 n).reverse.map digChar

/-- The characters of a JSON number token. -/
def numChars (neg : Bool) (ip : Nat) (frac : List (Fin 10)) : List Char :=
  (if neg then ['-'] else []) ++ natChars ip ++
    (if frac.isEmpty then [] else '.' :: frac.map (fun d => digChar d.val))

/-- The lower-case hexadecimal digit character for a value below 16. -/
def hexChar (n : Nat) : Char :=
  if n < 10 then Char.ofNat (48 + n) else Char.ofNat (87 + n)

/-- JSON string escaping of one character: the structural escapes for the
quote and the backslash, a `\u00XX` escape for control characters, and
every other character kept literal. -/
def escapeChar (c : Char) : List Char :=
  if c = '"' then ['\\', '"']
  else if c = '\\' then ['\\', '\\']
  else if c.toNat < 32 then
    ['\\', 'u', '0', '0', hexChar (c.toNat / 16), hexChar (c.toNat % 16)]
  else [c]

/-- JSON string escaping of a character list. -/
def escapeChars (cs : List Char) : List Char := (cs.map escapeChar).flatten

/-- The characters of a JSON string token, quotes included. -/
def strChars (s : String) : List Char := '"' :: (escapeChars s.data ++ ['"'])

mutual

/-- The characters printed for a JSON value, mirroring `json.dumps` with
its default separators. -/
def dumpChars : JValue → List Char
  | .jnull => ['n', 'u', 'l', 'l']
  | .jbool true => ['t', 'r', 'u', 'e']
  | .jbool false => ['f', 'a', 'l', 's', 'e']
  | .jnum neg ip frac => numChars neg ip frac
  | .jstr s => strChars s
  | .jarr es => '[' :: (dumpElemsChars es ++ [']'])
  | .jobj fs => '{' :: (dumpFieldsChars fs ++ ['}'])

/-- Comma-separated element list of a JSON array. -/
def dumpElemsChars : List JValue → List Char
  | [] => []
  | v :: rest =>
      dumpChars v ++
        (match rest with
         | [] => []
         | _ :: _ => ',' :: ' ' :: dumpElemsChars rest)

/-- Comma-separated member list of a JSON object. -/
def dumpFieldsChars : List (String × JValue) → List Char
  | [] => []
  | (k, v) :: rest =>
      strChars k ++ ':' :: ' ' :: dumpChars v ++
        (match rest with
         | [] => []
         | _ :: _ => ',' :: ' ' :: dumpFieldsChars rest)

end

/-- `json.dumps`: the JSON text of a value. -/
def json_dumps (t : JValue) : String := String.mk (dumpChars t)

/-- JSON insignificant whitespace. -/
def wsChar (c : Char) : Bool :=
  c = ' ' || c = '\t' || c = '\n' || c = '\r'

/-- Drop leading insignificant whitespace. -/
def skipWs : List Char → List Char
  | [] => []
  | c :: rest => if wsChar c then skipWs rest else c :: rest

/-- The value of a hexadecimal digit character. -/
def hexVal (c : Char) : Option Nat :=
  if 48 ≤ c.toNat && c.toNat ≤ 57 then some (c.toNat - 48)
  else if 97 ≤ c.toNat && c.toNat ≤ 102 then some (c.toNat - 87)
  else if 65 ≤ c.toNat && c.toNat ≤ 70 then some (c.toNat - 55)
  else none

/-- The single-character escapes a JSON string reader accepts after a
backslash, and the character each stands for. -/
def escShort (e : Char) : Option Char :=
  if e = '"' then some '"'
  else if e = '\\' then some '\\'
  else if e = '/' then some '/'
  else if e = 'b' then some (Char.ofNat 8)
  else if e = 'f' then some (Char.ofNat 12)
  else if e = 'n' then some '\n'
  else if e = 'r' then some '\r'
  else if e = 't' then some '\t'
  else none

/-- Read a JSON string body after the opening quote: the unescaped
characters and the remaining input after the closing quote.  The fuel
argument only needs to exceed the number of source characters; callers
pass the input length plus one. -/
def readStringBody : Nat → List Char → Option (List Char × List Char)
  | 0, _ => none
  | fuel + 1, l =>
      match l with
      | [] => none
      | c :: rest =>
          if c = '"' then some ([], rest)
          else if c = '\\' then
            match rest with
            | [] => none
            | e :: rest1 =>
                if e = 'u' then
                  match rest1 with
                  | h1 :: h2 :: h3 :: h4 :: rest2 =>
                      match hexVal h1, hexVal h2, hexVal h3, hexVal h4 with
                      | some a, some b, some c', some d =>
                          match readStringBody fuel rest2 with
                          | none => none
                          | some (cs, r) =>
                              some (Char.ofNat (((a * 16 + b) * 16 + c') * 16 + d) :: cs, r)
                      | _, _, _, _ => none
                  | _ => none
                else
                  match escShort e with
                  | none => none
                  | some ch =>
                      match readStringBody fuel rest1 with
                      | none => none
                      | some (cs, r) => some (ch :: cs, r)
          else
            match readStringBody fuel rest with
            | none => none
            | some (cs, r) => some (c :: cs, r)

/-- Is this a decimal digit character? -/
def isDigitChar (c : Char) : Bool := 48 ≤ c.toNat && c.toNat ≤ 57

/-- Accumulate decimal digit characters into a natural number. -/
def digitsToNat : List Char → Nat → Nat
  | [], acc => acc
  | c :: rest, acc => digitsToNat rest (acc * 10 + (c.toNat - 48))

/-- The digit value of a digit character, as a digit. -/
def charDigit (c : Char) : Fin 10 := Fin.ofNat (c.toNat - 48)

/-- Read a JSON number token after an optional leading minus sign. -/
def readNumberAfterSign (neg : Bool) (l : List Char) : Option (JValue × List Char) :=
  let ds := l.takeWhile isDigitChar
  let rest := l.dropWhile isDigitChar
  if ds.isEmpty then none
  else
    match rest with
    | '.' :: rest1 =>
        let fs := rest1.takeWhile isDigitChar
        let rest2 := rest1.dropWhile isDigitChar
        if fs.isEmpty then none
        else some (.jnum neg (digitsToNat ds 0) (fs.map charDigit), rest2)
    | _ => some (.jnum neg (digitsToNat ds 0) [], rest)

mutual

/-- Read one JSON value.  The first argument is the depth fuel: each
descent into a nested array or object consumes one unit. -/
def readValue : Nat → List Char → Option (JValue × List Char)
  | 0, _ => none
  | fuel + 1, l =>
      match skipWs l with
      | [] => none
      | c :: rest =>
          if c = 'n' then
            match rest with
            | 'u' :: 'l' :: 'l' :: r => some (.jnull, r)
            | _ => none
          else if c = 't' then
            match rest with
            | 'r' :: 'u' :: 'e' :: r => some (.jbool true, r)
            | _ => none
          else if c = 'f' then
            match rest with
            | 'a' :: 'l' :: 's' :: 'e' :: r => some (.jbool false, r)
            | _ => none
          else if c = '"' then
            match readStringBody (rest.length + 1) rest with
            | none => none
            | some (cs, r) => some (.jstr (String.mk cs), r)
          else if c = '-' then readNumberAfterSign true rest
          else if c = '[' then
            match skipWs rest with
            | ']' :: r => some (.jarr [], r)
            | l' =>
                match readElemsLoop fuel (l'.length + 1) l' with
                | none => none
                | some (es, r) => some (.jarr es, r)
          else if c = '{' then
            match skipWs rest with
            | '}' :: r => some (.jobj [], r)
            | l' =>
                match readFieldsLoop fuel (l'.length + 1) l' with
                | none => none
                | some (fs, r) => some (.jobj fs, r)
          else readNumberAfterSign false (c :: rest)
termination_by fuel _ => (fuel, 0, 0)

/-- Read the elements of a non-empty JSON array, up to and including the
closing bracket.  The second argument is a local step bound. -/
def readElemsLoop : Nat → Nat → List Char → Option (List JValue × List Char)
  | _, 0, _ => none
  | fuel, n + 1, l =>
      match readValue fuel l with
      | none => none
      | some (v, r) =>
          match skipWs r with
          | ',' :: r1 =>
              match readElemsLoop fuel n r1 with
              | none => none
              | some (es, r2) => some (v :: es, r2)
          | ']' :: r1 => some ([v], r1)
          | _ => none
termination_by fuel n _ => (fuel, 1, n)

/-- Read the members of a non-empty JSON object, up to and including the
closing brace.  The second argument is a local step bound. -/
def readFieldsLoop : Nat → Nat → List Char → Option (List (String × JValue) × List Char)
  | _, 0, _ => none
  | fuel, n + 1, l =>
      match skipWs l with
      | c :: rest =>
          if c = '"' then
            match readStringBody (rest.length + 1) rest with
            | none => none
            | some (kcs, r1) =>
                match skipWs r1 with
                | ':' :: r2 =>
                    match readValue fuel r2 with
                    | none => none
                    | some (v, r3) =>
                        match skipWs r3 with
                        | ',' :: r4 =>
                            match readFieldsLoop fuel n r4 with
                            | none => none
                            | some (fs, r5) => some ((String.mk kcs, v) :: fs, r5)
                        | '}' :: r4 => some ([(String.mk kcs, v)], r4)
                        | _ => none
                | _ => none
          else none
      | [] => none
termination_by fuel n _ => (fuel, 1, n)

end

/-- `json.loads`: read one JSON document and require only whitespace after
it; anything else is a `JSONDecodeError`.  The depth fuel derived from the
input length dominates the nesting depth of any document the input can
spell. -/
def json_loads_text (s : String) : Except PyError JValue :=
  match readValue (s.data.length + 1) s.data with
  | some (t, rest) =>
      if (skipWs rest).isEmpty then .ok t
      else .error (.jsonDecodeError "Extra data")
  | none => .error (.jsonDecodeError "Expecting value")

/-- The namespace of the `demo.models` module: the three model classes
under their qualified names. -/
def demoModule : PyModule :=
  [("User", .userClass), ("Location", .locationClass),
   ("Address", .addressClass)]

/-- The import environment in which the `demo.models` module exposes the
three concrete model classes under their qualified names — the state the
tests and the spec assume for resolution. -/
def demoEnv : ImportEnv := [("demo.models", demoModule)]

/-- `serialize_model_to_json_str` (serialization.py, lines 42 to 55):
serialize to a dictionary, then `json.dumps` it. -/
def serialize_model_to_json_str (m : Model) : String :=
  json_dumps (.jobj (serialize_model_to_dict m))

/-! ## Bytes and the text entry points -/

/-- UTF-8 encoding of one character. -/
def utf8EncodeChar (c : Char) : List Nat :=
  let n := c.toNat
  if n < 0x80 then [n]
  else if n < 0x800 then [0xC0 + n / 64, 0x80 + n % 64]
  else if n < 0x10000 then
    [0xE0 + n / 4096, 0x80 + n / 64 % 64, 0x80 + n % 64]
  else
    [0xF0 + n / 262144, 0x80 + n / 4096 % 64, 0x80 + n / 64 % 64, 0x80 + n % 64]

/-- UTF-8 encoding of a character list. -/
def utf8EncodeChars (cs : List Char) : List Nat :=
  (cs.map utf8EncodeChar).flatten

/-- UTF-8 encoding of a string, as a byte list. -/
def utf8Encode (s : String) : List Nat := utf8EncodeChars s.data

/-- Is this byte a UTF-8 continuation byte, and if so what is its payload? -/
def contByte (b : Nat) : Option Nat :=
  if 0x80 ≤ b && b < 0xC0 then some (b % 64) else none

/-- Consume one continuation byte. -/
def readCont1 : List Nat → Option (Nat × List Nat)
  | [] => none
  | b1 :: rest =>
      match contByte b1 with
      | none => none
      | some p1 => some (p1, rest)

/-- Consume two continuation bytes. -/
def readCont2 (l : List Nat) : Option (Nat × Nat × List Nat) :=
  match readCont1 l with
  | none => none
  | some (p1, l1) =>
      match readCont1 l1 with
      | none => none
      | some (p2, l2) => some (p1, p2, l2)

/-- Consume three continuation bytes. -/
def readCont3 (l : List Nat) : Option (Nat × Nat × Nat × List Nat) :=
  match readCont2 l with
  | none => none
  | some (p1, p2, l2) =>
      match readCont1 l2 with
      | none => none
      | some (p3, l3) => some (p1, p2, p3, l3)

/-- UTF-8 decoding of a byte list; `none` on an invalid sequence (a
`UnicodeDecodeError`).  The fuel only needs to exceed the number of
decoded characters; callers pass the byte count plus one. -/
def utf8DecodeChars : Nat → List Nat → Option (List Char)
  | 0, _ => none
  | _ + 1, [] => some []
  | fuel + 1, b :: rest =>
      if b < 0x80 then
        match utf8DecodeChars fuel rest with
        | none => none
        | some cs => some (Char.ofNat b :: cs)
      else if 0xC0 ≤ b && b < 0xE0 then
        match readCont1 rest with
        | none => none
        | some (p1, rest1) =>
            match utf8DecodeChars fuel rest1 with
            | none => none
            | some cs => some (Char.ofNat ((b - 0xC0) * 64 + p1) :: cs)
      else if 0xE0 ≤ b && b < 0xF0 then
        match readCont2 rest with
        | none => none
        | some (p1, p2, rest2) =>
            match utf8DecodeChars fuel rest2 with
            | none => none
            | some cs =>
                some (Char.ofNat (((b - 0xE0) * 64 + p1) * 64 + p2) :: cs)
      else if 0xF0 ≤ b && b < 0xF8 then
        match readCont3 rest with
        | none => none
        | some (p1, p2, p3, rest3) =>
            match utf8DecodeChars fuel rest3 with
            | none => none
            | some cs =>
                some (Char.ofNat ((((b - 0xF0) * 64 + p1) * 64 + p2) * 64 + p3) :: cs)
      else none

/-- `bytes.decode(utf-8)` of a byte list. -/
def utf8Decode (b : List Nat) : Option (List Char) :=
  utf8DecodeChars (b.length + 1) b

/-- The argument universe of `json.loads`: text, or UTF-8 byte content
(`bytes` and `bytearray` are modelled alike, as byte lists). -/
inductive JsonInput where
  | text (s : String)
  | byteData (b : List Nat)

/-- `json.loads` over its full argument universe: byte content is decoded
as UTF-8 first. -/
def json_loads : JsonInput → Except PyError JValue
  | .text s => json_loads_text s
  | .byteData b =>
      match utf8Decode b with
      | none => .error (.unicodeDecodeError "invalid start byte")
      | some cs => json_loads_text (String.mk cs)

/-- `deserialize_model_from_json` (serialization.py, lines 77 to 88):
`json.loads` the data, then deserialize the resulting dictionary.  When
the document is not a JSON object the popping of the metadata keys fails
with an `AttributeError` (the parsed value has no `pop` attribute). -/
def deserialize_model_from_json (env : ImportEnv) (data : JsonInput) :
    Except PyError Model :=
  match json_loads data with
  | .error e => .error e
  | .ok (.jobj fs) => deserialize_model_from_dict env fs
  | .ok _ => .error (.attributeError "pop")

/-! ## The mode-aware validation entry point -/

/-- The runtime value universe reaching `validate_model`: an
already-constructed model, an attribute tree, text, byte content, or any
other Python object (collapsed into one constructor carrying the name of
its type). -/
inductive PyValue where
  | model (m : Model)
  | tree (d : Dict)
  | text (s : String)
  | byteData (b : List Nat)
  | other (typeName : String)

/-- The text `type(value)` contributes to the unhandled-type message. -/
def PyValue.typeName : PyValue → String
  | .model m =>
      "<class demo.models." ++ m.dunderQualname ++ ">"
  | .tree _ => "<class dict>"
  | .text _ => "<class str>"
  | .byteData _ => "<class bytes>"
  | .other t => t

/-- `validate_model` (serialization.py, lines 91 to 142): dispatch on
`info.mode`.  In `python` mode an already-constructed model passes through
unchanged and a dictionary is deserialized; in `json` mode a string is
deserialized from JSON text and a dictionary from the tree; every other
value shape, and every other mode string, raises a `ValueError`.  (The
message renders the type name without quote marks.) -/
def validate_model (env : ImportEnv) (value : PyValue) (mode : String) :
    Except PyError Model :=
  if mode = "python" then
    match value with
    | .model m => .ok m
    | .tree d => deserialize_model_from_dict env d
    | v =>
        .error (.valueError
          ("unhandled type for mode " ++ mode ++ ": " ++ v.typeName))
  else if mode = "json" then
    match value with
    | .text s => deserialize_model_from_json env (.text s)
    | .tree d => deserialize_model_from_dict env d
    | v =>
        .error (.valueError
          ("unhandled type for mode " ++ mode ++ ": " ++ v.typeName))
  else
    .error (.valueError ("Invalid mode: " ++ mode))

/-! ## Module-level import analysis

The names bound at module level by `serialization.py`, and the from-import
executed first by `models.py`.  A `from M import a, b` statement succeeds
exactly when every requested name is an attribute of the imported module;
a missing name raises `ImportError`, which aborts the import of the
importing module, so no later statement of that module (in particular the
definition of the `Update` envelope class) ever executes. -/

/-- The module-level names `serialization.py` binds: its two imports and
its five function definitions. -/
def serializationModuleNames : List String :=
  ["json", "importlib", "BaseModel", "ValidationInfo",
   "serialize_model_to_dict", "serialize_model_to_json_str",
   "deserialize_model_from_dict", "deserialize_model_from_json",
   "validate_model"]

/-- The names `models.py` line 11 requests from `demo.serialization`. -/
def modelsRequestedNames : List String :=
  ["serialize_model", "validate_model"]

/-- Execute a from-import: the first requested name that the module does
not define raises `ImportError` on that name. -/
def runFromImport (defined requested : List String) : Except PyError Unit :=
  match requested with
  | [] => .ok ()
  | n :: rest =>
      if defined.contains n then runFromImport defined rest
      else .error (.importError n)

/-- The statements of `models.py` executed in order: the from-import on
line 11 runs first; the class definitions (among them the `Update`
envelope) exist only if it succeeds. -/
def importModelsModule : Except PyError Unit :=
  runFromImport serializationModuleNames modelsRequestedNames

/-! ## Predicates and sample values for the verification -/

/-- Is this JSON value a string or number leaf?  (The only value shapes a
model dump puts inside an attribute tree.) -/
def leafVal : JValue → Bool
  | .jstr _ => true
  | .jnum _ _ _ => true
  | _ => false

/-- Does this input not continue a number token?  (Empty, or a head that is
neither a digit nor a decimal point.) -/
def numStop : List Char → Bool
  | [] => true
  | c :: _ => !(isDigitChar c) && !(c = '.')

/-- The declared field names of a model type (pydantic `model_fields`). -/
def Model.fieldNames : Model → List String
  | .user _ => ["name", "date_of_birth", "height"]
  | .location _ => ["name", "latitude", "longitude"]
  | .address _ => ["street", "city"]

/-- The user instance of the test suite: `User(name="John Doe",
date_of_birth=datetime(1990, 1, 1), height=1.75)`. -/
def johnDoe : User := ⟨"John Doe", "1990-01-01T00:00:00", ⟨false, 1, [7, 5]⟩⟩

/-- The location instance of the test suite, with the exact decimal
latitude. -/
def centralPark : Location := ⟨"Central Park", "40.785091", "-73.968285"⟩

/-- A tree carrying both reserved keys and one payload field. -/
def c2Tree : Dict :=
  [("__module__", .jstr "demo.models"), ("__qualname__", .jstr "User"),
   ("name", .jstr "x")]

/-- The UTF-8 bytes of the JSON text of the serialized test user: a valid
UTF-8 JSON byte string encoding a registered model. -/
def userJsonBytes : List Nat :=
  utf8Encode (serialize_model_to_json_str (.user johnDoe))

/-! ## Dictionary lemmas -/

theorem dictPop_length {d : Dict} {k : String} {v : JValue} {r : Dict}
    (h : dictPop d k = some (v, r)) : r.length + 1 = d.length := by
  induction d generalizing v r with
  | nil => simp [dictPop] at h
  | cons p rest ih =>
      rw [dictPop] at h
      split at h
      · injection h with h'
        injection h' with h1 h2
        subst h2
        simp
      · revert h
        rcases hpop : dictPop rest k with _ | ⟨x, rest'⟩
        · intro h; exact absurd h (by simp)
        · intro h
          injection h with h'
          injection h' with h1 h2
          subst h2
          simpa using ih hpop

theorem dictPop_eq_none {d : Dict} {k : String}
    (h : ∀ p ∈ d, p.1 ≠ k) : dictPop d k = none := by
  induction d with
  | nil => rfl
  | cons p rest ih =>
      rw [dictPop, if_neg (h p (by simp)), ih (fun q hq => h q (by simp [hq]))]

theorem dictPop_subset {d : Dict} {k : String} {v : JValue} {r : Dict}
    (h : dictPop d k = some (v, r)) : ∀ p ∈ r, p ∈ d := by
  induction d generalizing v r with
  | nil => simp [dictPop] at h
  | cons q rest ih =>
      rw [dictPop] at h
      split at h
      · injection h with h'
        injection h' with h1 h2
        subst h2
        exact fun p hp => by simp [hp]
      · revert h
        rcases hpop : dictPop rest k with _ | ⟨x, rest'⟩
        · intro h; exact absurd h (by simp)
        · intro h
          injection h with h'
          injection h' with h1 h2
          subst h2
          intro p hp
          rcases List.mem_cons.mp hp with hp' | hp'
          · subst hp'; simp
          · exact List.mem_cons_of_mem _ (ih hpop p hp')

theorem dictPop_keys {d : Dict} {k k' : String} {v : JValue} {r : Dict}
    (h : dictPop d k = some (v, r)) (hk : ∀ p ∈ d, p.1 ≠ k') :
    ∀ p ∈ r, p.1 ≠ k' :=
  fun p hp => hk p (dictPop_subset h p hp)

/-! ## Shape of the serialized dictionary

The dump of a model never contains the reserved keys, so the two item
assignments of `serialize_model_to_dict` append, and the two pops of
`deserialize_model_from_dict` retrieve exactly the appended metadata. -/

theorem serialize_eq_append (m : Model) :
    serialize_model_to_dict m =
      m.model_dump ++
        [("__module__", .jstr m.dunderModule),
         ("__qualname__", .jstr m.dunderQualname)] := by
  cases m <;> rfl

theorem pop_module_serialize (m : Model) :
    dictPop (serialize_model_to_dict m) "__module__" =
      some (.jstr m.dunderModule,
        m.model_dump ++ [("__qualname__", .jstr m.dunderQualname)]) := by
  cases m <;> rfl

theorem pop_qualname_after (m : Model) :
    dictPop (m.model_dump ++ [("__qualname__", .jstr m.dunderQualname)])
        "__qualname__" =
      some (.jstr m.dunderQualname, m.model_dump) := by
  cases m <;> rfl

theorem model_validate_model_dump (m : Model) :
    m.cls.model_validate m.model_dump = .ok m := by
  cases m <;> rfl

/-! ## Character-class lemmas for the codec proofs -/

theorem toNat_ofNat_of_lt {n : Nat} (h : n < 0xd800) :
    (Char.ofNat n).toNat = n := by
  unfold Char.ofNat
  rw [dif_pos (Or.inl h)]
  simp [Char.ofNatAux, Char.toNat, UInt32.toNat]

theorem hexVal_hexChar : ∀ n < 16, hexVal (hexChar n) = some n := by decide

theorem isDigitChar_digChar : ∀ d < 10, isDigitChar (digChar d) = true := by
  decide

theorem charDigit_digChar : ∀ d : Fin 10, charDigit (digChar d.val) = d := by
  decide

theorem toNat_digChar : ∀ d < 10, (digChar d).toNat = 48 + d := by decide

/-- The head facts a digit character satisfies: not whitespace, and distinct
from every structural character the reader branches on. -/
theorem digit_head_facts {c : Char} (h : isDigitChar c = true) :
    wsChar c = false ∧ c ≠ 'n' ∧ c ≠ 't' ∧ c ≠ 'f' ∧ c ≠ '"' ∧ c ≠ '-' ∧
      c ≠ '[' ∧ c ≠ '{' ∧ c ≠ '.' := by
  obtain ⟨h1, h2⟩ : 48 ≤ c.toNat ∧ c.toNat ≤ 57 := by
    simpa [isDigitChar] using h
  rw [← Char.ofNat_toNat c]
  set t := c.toNat with ht
  interval_cases t <;> decide

theorem skipWs_cons_of_not_ws {c : Char} (h : wsChar c = false)
    (l : List Char) : skipWs (c :: l) = c :: l := by
  rw [skipWs]
  simp [h]

theorem skipWs_space (l : List Char) : skipWs (' ' :: l) = skipWs l := by
  rw [skipWs]
  simp [wsChar]

/-! ## String-token round trip -/

theorem escapeChars_cons (c : Char) (cs : List Char) :
    escapeChars (c :: cs) = escapeChar c ++ escapeChars cs := by
  simp [escapeChars]

theorem readStringBody_escape :
    ∀ (cs : List Char) (fuel : Nat) (rest : List Char), cs.length < fuel →
      readStringBody fuel (escapeChars cs ++ '"' :: rest) = some (cs, rest) := by
  intro cs
  induction cs with
  | nil =>
      intro fuel rest hf
      match fuel, hf with
      | f + 1, _ =>
          rw [readStringBody.eq_def]
          simp [escapeChars]
  | cons c cs ih =>
      intro fuel rest hf
      match fuel, hf with
      | f + 1, hf =>
          have hcs : cs.length < f := by
            simp only [List.length_cons] at hf
            omega
          rw [escapeChars_cons, List.append_assoc]
          by_cases h1 : c = '"'
          · subst h1
            rw [show escapeChar '"' = ['\\', '"'] from rfl]
            rw [readStringBody.eq_def]
            simp +decide [escShort, ih _ _ hcs]
          · by_cases h2 : c = '\\'
            · subst h2
              rw [show escapeChar '\\' = ['\\', '\\'] from rfl]
              rw [readStringBody.eq_def]
              simp +decide [escShort, ih _ _ hcs]
            · by_cases h3 : c.toNat < 32
              · have hesc : escapeChar c =
                    ['\\', 'u', '0', '0', hexChar (c.toNat / 16), hexChar (c.toNat % 16)] := by
                  rw [escapeChar, if_neg h1, if_neg h2, if_pos h3]
                rw [hesc, readStringBody.eq_def]
                have hhi := hexVal_hexChar (c.toNat / 16) (by omega)
                have hlo := hexVal_hexChar (c.toNat % 16) (by omega)
                have h0 : hexVal '0' = some 0 := by decide
                have harith : c.toNat / 16 * 16 + c.toNat % 16 = c.toNat := by
                  omega
                simp +decide [h0, hhi, hlo, ih _ _ hcs, harith, Char.ofNat_toNat]
              · have hesc : escapeChar c = [c] := by
                  rw [escapeChar, if_neg h1, if_neg h2, if_neg h3]
                rw [hesc]
                show readStringBody (f + 1) (c :: (escapeChars cs ++ '"' :: rest)) = _
                rw [readStringBody.eq_def]
                simp [h1, h2, ih _ _ hcs]

theorem escapeChars_length (cs : List Char) :
    cs.length ≤ (escapeChars cs).length := by
  induction cs with
  | nil => simp [escapeChars]
  | cons c cs ih =>
      rw [escapeChars_cons]
      have hc : 1 ≤ (escapeChar c).length := by
        rw [escapeChar]
        split_ifs <;> simp
      simp only [List.length_append, List.length_cons]
      omega

/-! ## Number-token round trip -/

theorem takeWhile_all_append {p : Char → Bool} :
    ∀ (l1 l2 : List Char), (∀ c ∈ l1, p c = true) →
      (∀ c ∈ l2.take 1, p c = false) →
      (l1 ++ l2).takeWhile p = l1 ∧ (l1 ++ l2).dropWhile p = l2 := by
  intro l1
  induction l1 with
  | nil =>
      intro l2 _ h2
      rcases l2 with _ | ⟨c, r⟩
      · simp
      · have hc : p c = false := h2 c (by simp)
        simp [List.takeWhile_cons, List.dropWhile_cons, hc]
  | cons a l1 ih =>
      intro l2 h1 h2
      have ha : p a = true := h1 a (by simp)
      have := ih l2 (fun c hc => h1 c (by simp [hc])) h2
      simp [List.takeWhile_cons, List.dropWhile_cons, ha, this.1, this.2]

theorem digitsToNat_append (l1 l2 : List Char) :
    ∀ acc, digitsToNat (l1 ++ l2) acc = digitsToNat l2 (digitsToNat l1 acc) := by
  induction l1 with
  | nil => intro acc; rfl
  | cons c l1 ih =>
      intro acc
      rw [List.cons_append, digitsToNat, digitsToNat, ih]

theorem digitsToNat_rev_digits :
    ∀ (L : List Nat), (∀ d ∈ L, d < 10) →
      ∀ acc, digitsToNat (L.reverse.map digChar) acc
        = acc * 10 ^ L.length + Nat.ofDigits 10 L := by
  intro L
  induction L with
  | nil => intro _ acc; simp [digitsToNat, Nat.ofDigits_nil]
  | cons d L ih =>
      intro hL acc
      have hd : d < 10 := hL d (by simp)
      rw [List.reverse_cons, List.map_append, digitsToNat_append,
        ih (fun e he => hL e (by simp [he])) acc]
      show digitsToNat [digChar d] _ = _
      rw [digitsToNat, digitsToNat, toNat_digChar d hd, Nat.ofDigits_cons]
      simp only [List.length_cons]
      ring_nf
      omega

theorem digitsToNat_natChars (n : Nat) : digitsToNat (natChars n) 0 = n := by
  by_cases h : n = 0
  · subst h; decide
  · rw [natChars, if_neg h,
      digitsToNat_rev_digits (Nat.digits 10 n)
        (fun d hd => Nat.digits_lt_base (by norm_num) hd) 0,
      Nat.ofDigits_digits]
    simp

theorem natChars_all_digits (n : Nat) :
    ∀ c ∈ natChars n, isDigitChar c = true := by
  intro c hc
  rw [natChars] at hc
  split_ifs at hc with h
  · simp at hc
    subst hc
    decide
  · obtain ⟨d, hd, rfl⟩ := List.mem_map.mp hc
    exact isDigitChar_digChar d
      (Nat.digits_lt_base (by norm_num) (List.mem_reverse.mp hd))

theorem natChars_ne_nil (n : Nat) : natChars n ≠ [] := by
  rw [natChars]
  split_ifs with h
  · simp
  · simp [Nat.digits_ne_nil_iff_ne_zero.mpr h]

theorem readNumberAfterSign_rt (neg : Bool) (ip : Nat) (frac : List (Fin 10))
    (rest : List Char) (hrest : numStop rest = true) :
    readNumberAfterSign neg
        (natChars ip ++
          ((if frac.isEmpty then []
            else '.' :: frac.map (fun d => digChar d.val)) ++ rest))
      = some (.jnum neg ip frac, rest) := by
  have hndig : ∀ c ∈ rest.take 1, isDigitChar c = false := by
    rcases rest with _ | ⟨c, r⟩
    · simp
    · simp only [numStop, Bool.and_eq_true, Bool.not_eq_eq_eq_not,
        Bool.not_true] at hrest
      intro e he
      simp at he
      subst he
      simpa using hrest.1
  have hndot : ∀ c r, rest = c :: r → ¬ c = '.' := by
    intro c r hcr
    subst hcr
    simp only [numStop, Bool.and_eq_true, Bool.not_eq_eq_eq_not,
      Bool.not_true] at hrest
    intro he
    subst he
    simpa using hrest.2
  by_cases hfrac : frac = []
  case pos =>
    subst hfrac
    simp only [List.isEmpty_nil, List.nil_append, if_true]
    have hsplit := takeWhile_all_append (p := isDigitChar)
      (natChars ip) rest (natChars_all_digits ip) hndig
    rw [readNumberAfterSign]
    rw [hsplit.1, hsplit.2]
    simp only [List.isEmpty_eq_true, natChars_ne_nil ip, if_false]
    rcases hr : rest with _ | ⟨c, r⟩
    · simp [digitsToNat_natChars]
    · have hc : ¬ c = '.' := hndot c r hr
      simp [hc, digitsToNat_natChars]
  case neg =>
    have hfe : frac.isEmpty = false := by
      rcases frac with _ | ⟨d, f⟩
      · exact absurd rfl hfrac
      · rfl
    have hsplit := takeWhile_all_append (p := isDigitChar)
      (natChars ip) ('.' :: (frac.map (fun d => digChar d.val) ++ rest))
      (natChars_all_digits ip) (by intro c hc; simp at hc; subst hc; decide)
    have hsplit2 := takeWhile_all_append (p := isDigitChar)
      (frac.map (fun d => digChar d.val)) rest
      (by
        intro c hc
        obtain ⟨d, _, rfl⟩ := List.mem_map.mp hc
        exact isDigitChar_digChar d.val d.isLt)
      hndig
    rw [readNumberAfterSign]
    simp only [hfe, Bool.false_eq_true, if_false, List.cons_append,
      List.append_assoc] at *
    rw [hsplit.1, hsplit.2]
    simp only [List.isEmpty_eq_true, natChars_ne_nil ip, if_false]
    rw [hsplit2.1, hsplit2.2]
    have hfs : (frac.map (fun d => digChar d.val)).isEmpty = false := by
      rcases frac with _ | ⟨d, f⟩
      · exact absurd rfl hfrac
      · rfl
    rw [if_neg (by simp [hfs, hfrac])]
    rw [digitsToNat_natChars]
    have hmap : (frac.map (fun d => digChar d.val)).map charDigit = frac := by
      rw [List.map_map]
      have : ∀ d ∈ frac, charDigit (digChar d.val) = d :=
        fun d _ => charDigit_digChar d
      calc frac.map (charDigit ∘ fun d => digChar d.val)
          = frac.map id := List.map_congr_left (by simpa using this)
        _ = frac := List.map_id frac
    rw [hmap]

/-! ## Leaf values and the reader -/

theorem readValue_leaf (fuel : Nat) (v : JValue) (hleaf : leafVal v = true)
    (rest : List Char) (hrest : numStop rest = true) :
    readValue (fuel + 1) (dumpChars v ++ rest) = some (v, rest) := by
  match v, hleaf with
  | .jstr s, _ =>
      have hdump : dumpChars (.jstr s) = strChars s := by rw [dumpChars]
      have hlen : s.data.length <
          (escapeChars s.data ++ '"' :: rest).length + 1 := by
        have := escapeChars_length s.data
        simp only [List.length_append, List.length_cons]
        omega
      rw [hdump, strChars, List.cons_append, List.append_assoc,
        List.singleton_append]
      rw [readValue.eq_def]
      simp only [skipWs_cons_of_not_ws
        (show wsChar '"' = false from by decide)]
      simp +decide only []
      simp only [if_true, if_false]
      rw [readStringBody_escape s.data
        ((escapeChars s.data ++ '"' :: rest).length + 1) rest hlen]
  | .jnum neg ip frac, _ =>
      have hdump : dumpChars (.jnum neg ip frac) = numChars neg ip frac := by
        rw [dumpChars]
      rw [hdump, numChars]
      rcases neg with _ | _
      · -- positive number: the head is the first digit character
        obtain ⟨c, cs', hnat⟩ : ∃ c cs', natChars ip = c :: cs' := by
          rcases h : natChars ip with _ | ⟨c, cs'⟩
          · exact absurd h (natChars_ne_nil ip)
          · exact ⟨c, cs', rfl⟩
        have hc : isDigitChar c = true :=
          natChars_all_digits ip c (by rw [hnat]; simp)
        obtain ⟨hws, hn, ht, hf, hq, hm, hlb, hlbr, _⟩ := digit_head_facts hc
        simp only [Bool.false_eq_true, if_false, List.nil_append]
        rw [List.append_assoc, hnat, List.cons_append]
        rw [readValue.eq_def]
        simp only [skipWs_cons_of_not_ws hws]
        simp only [if_neg hn, if_neg ht, if_neg hf, if_neg hq, if_neg hm,
          if_neg hlb, if_neg hlbr]
        rw [← List.cons_append, ← hnat]
        exact readNumberAfterSign_rt false ip frac rest hrest
      · -- negative number: the head is the minus sign
        simp only [if_true, List.cons_append, List.nil_append,
          List.append_assoc]
        rw [readValue.eq_def]
        simp only [skipWs_cons_of_not_ws
          (show wsChar '-' = false from by decide)]
        simp only [if_neg (by decide : ¬ ('-' : Char) = 'n'),
          if_neg (by decide : ¬ ('-' : Char) = 't'),
          if_neg (by decide : ¬ ('-' : Char) = 'f'),
          if_neg (by decide : ¬ ('-' : Char) = '"'),
          if_pos (rfl : ('-' : Char) = '-')]
        exact readNumberAfterSign_rt true ip frac rest hrest

theorem readStringBody_escape_auto (cs rest : List Char) :
    readStringBody ((escapeChars cs ++ '"' :: rest).length + 1)
      (escapeChars cs ++ '"' :: rest) = some (cs, rest) :=
  readStringBody_escape cs _ rest
    (by
      have := escapeChars_length cs
      simp only [List.length_append, List.length_cons]
      omega)

theorem readValue_space (fuel : Nat) (l : List Char) :
    readValue (fuel + 1) (' ' :: l) = readValue (fuel + 1) l := by
  simp only [readValue.eq_def, skipWs_space]

theorem readFieldsLoop_space (fuel n : Nat) (l : List Char) :
    readFieldsLoop fuel (n + 1) (' ' :: l) = readFieldsLoop fuel (n + 1) l := by
  rw [readFieldsLoop.eq_def]
  conv_rhs => rw [readFieldsLoop.eq_def]
  simp only [skipWs_space]

theorem readFieldsLoop_rt :
    ∀ (fs : List (String × JValue)) (fuel n : Nat) (rest : List Char),
      fs ≠ [] → (∀ kv ∈ fs, leafVal kv.2 = true) → fs.length ≤ n →
      readFieldsLoop (fuel + 1) n (dumpFieldsChars fs ++ '}' :: rest)
        = some (fs, rest) := by
  intro fs
  induction fs with
  | nil => intro _ _ _ h _ _; exact absurd rfl h
  | cons kv fs' ih =>
      rcases kv with ⟨k, v⟩
      intro fuel n rest _ hleaf hn
      have hv : leafVal v = true := hleaf (k, v) (by simp)
      match n, hn with
      | n' + 1, hn =>
      rw [dumpFieldsChars.eq_def]
      simp only [strChars, List.cons_append, List.append_assoc,
        List.singleton_append]
      rw [readFieldsLoop.eq_def]
      simp only [skipWs_cons_of_not_ws
        (show wsChar '"' = false from by decide)]
      simp only [if_true, if_false, readStringBody_escape_auto,
        List.nil_append]
      rw [skipWs_cons_of_not_ws (show wsChar ':' = false from by decide)]
      rcases fs' with _ | ⟨kv2, fs''⟩
      · -- last member: the input continues with the closing brace
        simp only [List.nil_append, readValue_space,
          readValue_leaf fuel v hv ('}' :: rest) rfl,
          skipWs_cons_of_not_ws (show wsChar '}' = false from by decide)]
      · -- further members follow after a comma separator
        have hn' : fs''.length + 1 ≤ n' := by
          simp only [List.length_cons] at hn
          omega
        match n', hn' with
        | n'' + 1, hn2 =>
        simp only [List.cons_append, List.append_assoc, List.nil_append]
        simp only [readValue_space,
          readValue_leaf fuel v hv
            (',' :: ' ' :: (dumpFieldsChars (kv2 :: fs'') ++ '}' :: rest)) rfl,
          skipWs_cons_of_not_ws (show wsChar ',' = false from by decide)]
        rw [readFieldsLoop_space]
        rw [ih fuel (n'' + 1) rest (by simp)
          (fun p hp => hleaf p (by simp [hp]))
          (by simp only [List.length_cons]; omega)]

theorem dumpFieldsChars_length (fs : List (String × JValue)) :
    fs.length ≤ (dumpFieldsChars fs).length := by
  induction fs with
  | nil => simp [dumpFieldsChars.eq_def]
  | cons kv fs' ih =>
      rcases kv with ⟨k, v⟩
      rw [dumpFieldsChars.eq_def]
      rcases fs' with _ | ⟨kv2, fs''⟩
      · simp [strChars]
      · simp only [strChars, List.length_cons, List.length_append,
          List.cons_append] at ih ⊢
        omega

theorem readValue_flatObj (fuel : Nat) (fs : List (String × JValue))
    (hleaf : ∀ kv ∈ fs, leafVal kv.2 = true) (rest : List Char) :
    readValue (fuel + 2) (dumpChars (.jobj fs) ++ rest)
      = some (.jobj fs, rest) := by
  have hdump : dumpChars (.jobj fs) = '{' :: (dumpFieldsChars fs ++ ['}']) := by
    rw [dumpChars]
  rw [hdump]
  simp only [List.cons_append, List.append_assoc, List.singleton_append]
  rw [readValue.eq_def]
  simp only [skipWs_cons_of_not_ws
    (show wsChar '{' = false from by decide), List.nil_append]
  simp +decide only []
  simp only [if_true, if_false]
  rcases fs with _ | ⟨⟨k, v⟩, fs'⟩
  · rw [show dumpFieldsChars [] = [] from by rw [dumpFieldsChars.eq_def]]
    simp only [List.nil_append,
      skipWs_cons_of_not_ws (show wsChar '}' = false from by decide)]
  · obtain ⟨t, ht⟩ : ∃ t, dumpFieldsChars ((k, v) :: fs') ++ '}' :: rest
        = '"' :: t := by
      rw [dumpFieldsChars.eq_def]
      simp only [strChars, List.cons_append, List.append_assoc]
      exact ⟨_, rfl⟩
    rw [ht]
    simp only [skipWs_cons_of_not_ws
      (show wsChar '"' = false from by decide)]
    have hbound : ((k, v) :: fs').length
        ≤ (dumpFieldsChars ((k, v) :: fs') ++ '}' :: rest).length + 1 := by
      have := dumpFieldsChars_length ((k, v) :: fs')
      simp only [List.length_append, List.length_cons] at this ⊢
      omega
    split
    · next r heq => simp at heq
    · rw [← ht]
      rw [readFieldsLoop_rt ((k, v) :: fs') fuel _ rest (by simp) hleaf hbound]

/-- `json.loads` of `json.dumps` of a flat object whose values are string
or number leaves gives the object back. -/
theorem json_loads_text_dumps_flat (fs : List (String × JValue))
    (hleaf : ∀ kv ∈ fs, leafVal kv.2 = true) :
    json_loads_text (json_dumps (.jobj fs)) = .ok (.jobj fs) := by
  have hdump : dumpChars (.jobj fs) = '{' :: (dumpFieldsChars fs ++ ['}']) := by
    rw [dumpChars]
  rw [json_loads_text, json_dumps]
  rw [show (String.mk (dumpChars (.jobj fs))).data = dumpChars (.jobj fs)
    from rfl]
  have harith : (dumpChars (.jobj fs)).length + 1
      = (dumpFieldsChars fs ++ ['}']).length + 2 := by
    rw [hdump]
    simp
  rw [harith]
  rw [show dumpChars (.jobj fs) = dumpChars (.jobj fs) ++ []
    from (List.append_nil _).symm]
  rw [readValue_flatObj _ fs hleaf []]
  rfl

/-- The dictionary-level round trip, for any import environment that
resolves the metadata of the model back to its class. -/
theorem roundtrip_dict {env : ImportEnv} {md : PyModule} (m : Model)
    (himp : import_module env m.dunderModule = .ok md)
    (hattr : py_getattr md m.dunderQualname = .ok m.cls) :
    deserialize_model_from_dict env (serialize_model_to_dict m) = .ok m := by
  rw [deserialize_model_from_dict, deserialize_model_from_dict_st]
  simp only [pop_module_serialize, pop_qualname_after, himp, hattr,
    model_validate_model_dump]

/-- Every value in a serialized dictionary is a string or number leaf. -/
theorem serialize_fields_leaf (m : Model) :
    ∀ kv ∈ serialize_model_to_dict m, leafVal kv.2 = true := by
  intro kv h
  rw [serialize_eq_append] at h
  cases m with
  | user u =>
      simp only [Model.model_dump, Model.dunderModule, Model.dunderQualname,
        List.mem_append, List.mem_cons, List.not_mem_nil, or_false] at h
      rcases h with (rfl | rfl | rfl) | (rfl | rfl) <;> rfl
  | location l =>
      simp only [Model.model_dump, Model.dunderModule, Model.dunderQualname,
        List.mem_append, List.mem_cons, List.not_mem_nil, or_false] at h
      rcases h with (rfl | rfl | rfl) | (rfl | rfl) <;> rfl
  | address a =>
      simp only [Model.model_dump, Model.dunderModule, Model.dunderQualname,
        List.mem_append, List.mem_cons, List.not_mem_nil, or_false] at h
      rcases h with (rfl | rfl) | (rfl | rfl) <;> rfl

/-- The JSON-text round trip, for any import environment that resolves the
metadata of the model back to its class. -/
theorem roundtrip_json {env : ImportEnv} {md : PyModule} (m : Model)
    (himp : import_module env m.dunderModule = .ok md)
    (hattr : py_getattr md m.dunderQualname = .ok m.cls) :
    deserialize_model_from_json env (.text (serialize_model_to_json_str m))
      = .ok m := by
  rw [deserialize_model_from_json, serialize_model_to_json_str]
  simp only [json_loads,
    json_loads_text_dumps_flat (serialize_model_to_dict m)
      (serialize_fields_leaf m)]
  exact roundtrip_dict m himp hattr

/-! ## UTF-8 round trip -/

theorem char_valid_bound (c : Char) :
    c.toNat < 0xd800 ∨ (0xe000 ≤ c.toNat ∧ c.toNat < 0x110000) := c.valid

theorem contByte_payload (x : Nat) (hx : x < 64) :
    contByte (0x80 + x) = some x := by
  rw [contByte, if_pos (by
    simp only [Bool.and_eq_true, decide_eq_true_eq]
    omega)]
  congr 1
  omega

theorem readCont1_payload (x : Nat) (hx : x < 64) (rest : List Nat) :
    readCont1 ((0x80 + x) :: rest) = some (x, rest) := by
  rw [readCont1, contByte_payload x hx]

theorem readCont2_payload (x y : Nat) (hx : x < 64) (hy : y < 64)
    (rest : List Nat) :
    readCont2 ((0x80 + x) :: (0x80 + y) :: rest) = some (x, y, rest) := by
  simp only [readCont2, readCont1_payload x hx, readCont1_payload y hy]

theorem readCont3_payload (x y z : Nat) (hx : x < 64) (hy : y < 64)
    (hz : z < 64) (rest : List Nat) :
    readCont3 ((0x80 + x) :: (0x80 + y) :: (0x80 + z) :: rest)
      = some (x, y, z, rest) := by
  simp only [readCont3, readCont2_payload x y hx hy, readCont1_payload z hz]

theorem utf8DecodeChars_encodeChar (c : Char) (rest : List Nat) (fuel : Nat) :
    utf8DecodeChars (fuel + 1) (utf8EncodeChar c ++ rest)
      = match utf8DecodeChars fuel rest with
        | none => none
        | some cs => some (c :: cs) := by
  have hvalid := char_valid_bound c
  by_cases h1 : c.toNat < 0x80
  · have he : utf8EncodeChar c = [c.toNat] := by
      simp only [utf8EncodeChar]
      rw [if_pos h1]
    rw [he, List.singleton_append, utf8DecodeChars.eq_def]
    simp only [if_pos h1, Char.ofNat_toNat]
  · by_cases h2 : c.toNat < 0x800
    · have he : utf8EncodeChar c
          = [0xC0 + c.toNat / 64, 0x80 + c.toNat % 64] := by
        simp only [utf8EncodeChar]
        rw [if_neg h1, if_pos h2]
      have hb1 : ¬ (0xC0 + c.toNat / 64 < 0x80) := by omega
      have hb2 : (0xC0 ≤ 0xC0 + c.toNat / 64 && 0xC0 + c.toNat / 64 < 0xE0)
          = true := by
        simp only [Bool.and_eq_true, decide_eq_true_eq]
        omega
      have harith : (0xC0 + c.toNat / 64 - 0xC0) * 64 + c.toNat % 64
          = c.toNat := by omega
      rw [he, List.cons_append, List.singleton_append, utf8DecodeChars.eq_def]
      simp only [if_neg hb1, hb2, if_true,
        readCont1_payload (c.toNat % 64) (by omega) rest,
        harith, Char.ofNat_toNat]
    · by_cases h3 : c.toNat < 0x10000
      · have he : utf8EncodeChar c
            = [0xE0 + c.toNat / 4096, 0x80 + c.toNat / 64 % 64,
               0x80 + c.toNat % 64] := by
          simp only [utf8EncodeChar]
          rw [if_neg h1, if_neg h2, if_pos h3]
        have hb1 : ¬ (0xE0 + c.toNat / 4096 < 0x80) := by omega
        have hb2 : (0xC0 ≤ 0xE0 + c.toNat / 4096 &&
            0xE0 + c.toNat / 4096 < 0xE0) = false := by
          simp only [Bool.and_eq_false_iff, decide_eq_false_iff_not]
          right
          omega
        have hb3 : (0xE0 ≤ 0xE0 + c.toNat / 4096 &&
            0xE0 + c.toNat / 4096 < 0xF0) = true := by
          simp only [Bool.and_eq_true, decide_eq_true_eq]
          omega
        have harith : ((0xE0 + c.toNat / 4096 - 0xE0) * 64
            + c.toNat / 64 % 64) * 64 + c.toNat % 64 = c.toNat := by omega
        rw [he, List.cons_append, List.cons_append, List.singleton_append,
          utf8DecodeChars.eq_def]
        simp only [if_neg hb1, hb2, hb3, Bool.false_eq_true, if_false,
          if_true,
          readCont2_payload (c.toNat / 64 % 64) (c.toNat % 64)
            (by omega) (by omega) rest,
          harith, Char.ofNat_toNat]
      · have hlt : c.toNat < 0x110000 := by omega
        have he : utf8EncodeChar c
            = [0xF0 + c.toNat / 262144, 0x80 + c.toNat / 4096 % 64,
               0x80 + c.toNat / 64 % 64, 0x80 + c.toNat % 64] := by
          simp only [utf8EncodeChar]
          rw [if_neg h1, if_neg h2, if_neg h3]
        have hb1 : ¬ (0xF0 + c.toNat / 262144 < 0x80) := by omega
        have hb2 : (0xC0 ≤ 0xF0 + c.toNat / 262144 &&
            0xF0 + c.toNat / 262144 < 0xE0) = false := by
          simp only [Bool.and_eq_false_iff, decide_eq_false_iff_not]
          right
          omega
        have hb3 : (0xE0 ≤ 0xF0 + c.toNat / 262144 &&
            0xF0 + c.toNat / 262144 < 0xF0) = false := by
          simp only [Bool.and_eq_false_iff, decide_eq_false_iff_not]
          right
          omega
        have hb4 : (0xF0 ≤ 0xF0 + c.toNat / 262144 &&
            0xF0 + c.toNat / 262144 < 0xF8) = true := by
          simp only [Bool.and_eq_true, decide_eq_true_eq]
          omega
        have harith : (((0xF0 + c.toNat / 262144 - 0xF0) * 64
            + c.toNat / 4096 % 64) * 64 + c.toNat / 64 % 64) * 64
            + c.toNat % 64 = c.toNat := by omega
        rw [he, List.cons_append, List.cons_append, List.cons_append,
          List.singleton_append, utf8DecodeChars.eq_def]
        simp only [if_neg hb1, hb2, hb3, hb4, Bool.false_eq_true, if_false,
          if_true,
          readCont3_payload (c.toNat / 4096 % 64) (c.toNat / 64 % 64)
            (c.toNat % 64) (by omega) (by omega) (by omega) rest,
          harith, Char.ofNat_toNat]

theorem utf8EncodeChar_length (c : Char) : 1 ≤ (utf8EncodeChar c).length := by
  simp only [utf8EncodeChar]
  split_ifs <;> simp

theorem utf8EncodeChars_length (cs : List Char) :
    cs.length ≤ (utf8EncodeChars cs).length := by
  induction cs with
  | nil => simp [utf8EncodeChars]
  | cons c cs ih =>
      have h1 : utf8EncodeChars (c :: cs)
          = utf8EncodeChar c ++ utf8EncodeChars cs := by
        simp [utf8EncodeChars]
      have h2 := utf8EncodeChar_length c
      simp only [h1, List.length_append, List.length_cons]
      omega

theorem utf8DecodeChars_encodeChars :
    ∀ (cs : List Char) (fuel : Nat), cs.length < fuel →
      utf8DecodeChars fuel (utf8EncodeChars cs) = some cs := by
  intro cs
  induction cs with
  | nil =>
      intro fuel hf
      match fuel, hf with
      | f + 1, _ =>
          rw [show utf8EncodeChars [] = [] from by simp [utf8EncodeChars]]
          rw [utf8DecodeChars.eq_def]
  | cons c cs ih =>
      intro fuel hf
      match fuel, hf with
      | f + 1, hf =>
          have hcs : cs.length < f := by
            simp only [List.length_cons] at hf
            omega
          rw [show utf8EncodeChars (c :: cs)
            = utf8EncodeChar c ++ utf8EncodeChars cs from by
              simp [utf8EncodeChars]]
          rw [utf8DecodeChars_encodeChar c _ f, ih f hcs]

/-- UTF-8 decoding of the UTF-8 encoding of any string gives the string
back. -/
theorem utf8Decode_encode (s : String) :
    utf8Decode (utf8Encode s) = some s.data := by
  rw [utf8Decode]
  exact utf8DecodeChars_encodeChars s.data _
    (by
      have := utf8EncodeChars_length s.data
      rw [utf8Encode]
      omega)

/-! ## The claims -/

/-- C1: for every model value whose type is registered — its defining
module importable in the environment and its qualified name resolvable to
its class — deserializing the serialized form returns the value back, both
through the dictionary form and through the JSON text form. -/
theorem claim_roundtrip_of_registered {env : ImportEnv} {md : PyModule}
    (m : Model)
    (himp : import_module env m.dunderModule = .ok md)
    (hattr : py_getattr md m.dunderQualname = .ok m.cls) :
    deserialize_model_from_dict env (serialize_model_to_dict m) = .ok m ∧
    deserialize_model_from_json env (.text (serialize_model_to_json_str m))
      = .ok m :=
  ⟨roundtrip_dict m himp hattr, roundtrip_json m himp hattr⟩

/-- Witness for C1 at the test-suite user value under the demo import
environment. -/
theorem claim_roundtrip_of_registered_witness :
    (import_module demoEnv (Model.user johnDoe).dunderModule
        = .ok demoModule ∧
      py_getattr demoModule (Model.user johnDoe).dunderQualname
        = .ok (Model.user johnDoe).cls) ∧
    (deserialize_model_from_dict demoEnv
        (serialize_model_to_dict (.user johnDoe)) = .ok (.user johnDoe) ∧
      deserialize_model_from_json demoEnv
        (.text (serialize_model_to_json_str (.user johnDoe)))
        = .ok (.user johnDoe)) :=
  ⟨⟨rfl, rfl⟩, claim_roundtrip_of_registered (.user johnDoe) rfl rfl⟩

/-- C2, counterexample: the public tree entry point does not leave the
caller's tree unchanged — after a call on a tree carrying both reserved
keys, the dictionary object the caller passed in has lost them. -/
theorem claim_tree_mutation_counterexample :
    (deserialize_model_from_dict_st demoEnv c2Tree).2 ≠ c2Tree := by
  intro h
  exact absurd (congrArg List.length h) (by decide)

/-- C2, amended: `deserialize_model_from_dict` pops the two reserved keys
from the caller's dictionary object itself.  Whenever both keys are
present, the state of the caller's tree after the call is the tree with
both entries removed — two entries shorter, not unchanged. -/
theorem claim_tree_mutated_in_place (env : ImportEnv) (dct : Dict)
    (v1 v2 : JValue) (d1 d2 : Dict)
    (h1 : dictPop dct "__module__" = some (v1, d1))
    (h2 : dictPop d1 "__qualname__" = some (v2, d2)) :
    (deserialize_model_from_dict_st env dct).2 = d2 ∧
    d2.length + 2 = dct.length := by
  constructor
  · rw [deserialize_model_from_dict_st]
    simp only [h1, h2]
    rcases v1 <;> rcases v2 <;> rfl
  · have l1 := dictPop_length h1
    have l2 := dictPop_length h2
    omega

/-- Witness for the amended C2 at a concrete three-entry tree. -/
theorem claim_tree_mutated_in_place_witness :
    dictPop c2Tree "__module__"
      = some (.jstr "demo.models",
          [("__qualname__", .jstr "User"), ("name", .jstr "x")]) ∧
    dictPop [("__qualname__", .jstr "User"), ("name", .jstr "x")]
        "__qualname__"
      = some (.jstr "User", [("name", .jstr "x")]) ∧
    ((deserialize_model_from_dict_st demoEnv c2Tree).2
        = [("name", .jstr "x")] ∧
      ([("name", .jstr "x")] : Dict).length + 2 = c2Tree.length) :=
  ⟨rfl, rfl, claim_tree_mutated_in_place demoEnv c2Tree _ _ _ _ rfl rfl⟩

/-- C3, counterexample: on a tree with no `__module__` key the failure is
the builtin `KeyError` of `dict.pop`, which is not the dedicated
`MissingMetadataError` the claim names. -/
theorem claim_missing_metadata_counterexample :
    deserialize_model_from_dict demoEnv [] = .error (.keyError "__module__") ∧
    PyError.keyError "__module__" ≠ PyError.missingMetadataError :=
  ⟨rfl, by decide⟩

/-- C3, amended: resolving a tree missing either reserved key (or both)
fails, and the failure is surfaced to the immediate caller, but as the
builtin `KeyError` of the first failing pop — `__module__` is popped
first — not as a dedicated missing-metadata error. -/
theorem claim_missing_metadata_keyerror (env : ImportEnv) (dct : Dict)
    (h : "__module__" ∉ dct.map Prod.fst ∨
      "__qualname__" ∉ dct.map Prod.fst) :
    deserialize_model_from_dict env dct = .error (.keyError "__module__") ∨
    deserialize_model_from_dict env dct = .error (.keyError "__qualname__") := by
  rcases hpop : dictPop dct "__module__" with _ | ⟨v1, d1⟩
  · left
    rw [deserialize_model_from_dict, deserialize_model_from_dict_st]
    simp only [hpop]
  · rcases hpop2 : dictPop d1 "__qualname__" with _ | ⟨v2, d2⟩
    · right
      rw [deserialize_model_from_dict, deserialize_model_from_dict_st]
      simp only [hpop, hpop2]
    · exfalso
      rcases h with h | h
      · have hforall : ∀ p ∈ dct, p.1 ≠ "__module__" :=
          fun p hp heq => h (List.mem_map.mpr ⟨p, hp, heq⟩)
        rw [dictPop_eq_none hforall] at hpop
        exact Option.noConfusion hpop
      · have hforall : ∀ p ∈ dct, p.1 ≠ "__qualname__" :=
          fun p hp heq => h (List.mem_map.mpr ⟨p, hp, heq⟩)
        have hd1 := dictPop_keys hpop hforall
        rw [dictPop_eq_none hd1] at hpop2
        exact Option.noConfusion hpop2

/-- Witness for the amended C3 at a tree holding only `__qualname__`. -/
theorem claim_missing_metadata_keyerror_witness :
    ("__module__"
        ∉ ([("__qualname__", JValue.jstr "User")] : Dict).map Prod.fst ∨
      "__qualname__"
        ∉ ([("__qualname__", JValue.jstr "User")] : Dict).map Prod.fst) ∧
    (deserialize_model_from_dict demoEnv [("__qualname__", JValue.jstr "User")]
        = .error (.keyError "__module__") ∨
      deserialize_model_from_dict demoEnv [("__qualname__", JValue.jstr "User")]
        = .error (.keyError "__qualname__")) :=
  ⟨Or.inl (by decide),
   claim_missing_metadata_keyerror demoEnv _ (Or.inl (by decide))⟩

/-- C4, counterexample: a tree whose namespace does not resolve fails with
the underlying `ModuleNotFoundError` of the import machinery, which is not
a single dedicated `UnknownTypeError`. -/
theorem claim_unknown_type_counterexample :
    deserialize_model_from_dict demoEnv
        [("__module__", .jstr "nope"), ("__qualname__", .jstr "User")]
      = .error (.moduleNotFoundError "nope") ∧
    PyError.moduleNotFoundError "nope" ≠ PyError.unknownTypeError :=
  ⟨rfl, by decide⟩

/-- C4, amended: when the metadata pair does not resolve to a registered
type the failure is the underlying lookup exception, propagated to the
caller: `ModuleNotFoundError` naming the namespace when the module is not
importable, and `AttributeError` naming the qualified name when the module
imports but lacks that attribute — not a dedicated `UnknownTypeError`, a
crash or a silent null. -/
theorem claim_unknown_type_lookup_errors (env : ImportEnv) (dct : Dict)
    (mName qName : String) (d1 d2 : Dict)
    (h1 : dictPop dct "__module__" = some (.jstr mName, d1))
    (h2 : dictPop d1 "__qualname__" = some (.jstr qName, d2)) :
    (assocFind env mName = none →
      deserialize_model_from_dict env dct
        = .error (.moduleNotFoundError mName)) ∧
    (∀ md, assocFind env mName = some md → assocFind md qName = none →
      deserialize_model_from_dict env dct
        = .error (.attributeError qName)) := by
  constructor
  · intro hm
    rw [deserialize_model_from_dict, deserialize_model_from_dict_st]
    simp only [h1, h2, import_module, hm]
  · intro md hm ha
    rw [deserialize_model_from_dict, deserialize_model_from_dict_st]
    simp only [h1, h2, import_module, hm, py_getattr, ha]

/-- Witness for the amended C4: a missing module, and a present module
with a missing class name. -/
theorem claim_unknown_type_lookup_errors_witness :
    dictPop [("__module__", JValue.jstr "nope"),
        ("__qualname__", JValue.jstr "User")] "__module__"
      = some (.jstr "nope", [("__qualname__", .jstr "User")]) ∧
    dictPop [("__qualname__", JValue.jstr "User")] "__qualname__"
      = some (.jstr "User", []) ∧
    assocFind demoEnv "nope" = none ∧
    deserialize_model_from_dict demoEnv
        [("__module__", .jstr "nope"), ("__qualname__", .jstr "User")]
      = .error (.moduleNotFoundError "nope") ∧
    assocFind demoEnv "demo.models" = some demoModule ∧
    assocFind demoModule "Nope" = none ∧
    deserialize_model_from_dict demoEnv
        [("__module__", .jstr "demo.models"), ("__qualname__", .jstr "Nope")]
      = .error (.attributeError "Nope") :=
  ⟨rfl, rfl, rfl,
   (claim_unknown_type_lookup_errors demoEnv
     [("__module__", .jstr "nope"), ("__qualname__", .jstr "User")]
     "nope" "User" [("__qualname__", .jstr "User")] [] rfl rfl).1 rfl,
   rfl, rfl,
   (claim_unknown_type_lookup_errors demoEnv
     [("__module__", .jstr "demo.models"), ("__qualname__", .jstr "Nope")]
     "demo.models" "Nope" [("__qualname__", .jstr "Nope")] [] rfl rfl).2
     demoModule rfl rfl⟩

/-- C5: every serialized dictionary carries both reserved keys, holding
the defining module name and the qualified class name of the value, and
the field set of any model produced by `deserialize_model_from_dict`
contains neither reserved key. -/
theorem claim_metadata_present_and_stripped (env : ImportEnv) (m : Model)
    (dct : Dict) (m' : Model)
    (hres : deserialize_model_from_dict env dct = .ok m') :
    dictGet (serialize_model_to_dict m) "__module__"
        = some (.jstr m.dunderModule) ∧
    dictGet (serialize_model_to_dict m) "__qualname__"
        = some (.jstr m.dunderQualname) ∧
    "__module__" ∉ m'.fieldNames ∧
    "__qualname__" ∉ m'.fieldNames := by
  refine ⟨?_, ?_, ?_, ?_⟩
  · cases m <;> rfl
  · cases m <;> rfl
  · cases m' <;> simp [Model.fieldNames]
  · cases m' <;> simp [Model.fieldNames]

/-- Witness for C5 at the serialized test user. -/
theorem claim_metadata_present_and_stripped_witness :
    deserialize_model_from_dict demoEnv
        (serialize_model_to_dict (.user johnDoe)) = .ok (.user johnDoe) ∧
    (dictGet (serialize_model_to_dict (.user johnDoe)) "__module__"
        = some (.jstr (Model.user johnDoe).dunderModule) ∧
      dictGet (serialize_model_to_dict (.user johnDoe)) "__qualname__"
        = some (.jstr (Model.user johnDoe).dunderQualname) ∧
      "__module__" ∉ (Model.user johnDoe).fieldNames ∧
      "__qualname__" ∉ (Model.user johnDoe).fieldNames) :=
  ⟨rfl, claim_metadata_present_and_stripped demoEnv (.user johnDoe)
    (serialize_model_to_dict (.user johnDoe)) (.user johnDoe) rfl⟩

/-- C6: under structured (`python`) mode an already-constructed model
value passes through `validate_model` unchanged as `ok` of the very value,
with no side effect expressible in the pure embedding; and a text form and
its pre-parsed tree form validate to equal results under text (`json`)
mode and structured mode respectively. -/
theorem claim_structured_identity_and_agreement (env : ImportEnv)
    (m : Model) (s : String) (fs : Dict)
    (hparse : json_loads_text s = .ok (.jobj fs)) :
    validate_model env (.model m) "python" = .ok m ∧
    validate_model env (.text s) "json"
      = validate_model env (.tree fs) "python" := by
  refine ⟨rfl, ?_⟩
  simp only [validate_model.eq_def, if_true]
  rw [deserialize_model_from_json]
  simp only [json_loads, hparse]
  rw [if_neg (show ¬ ("json" : String) = "python" from by decide)]

/-- Witness for C6 at the test user, its JSON text and its parsed tree. -/
theorem claim_structured_identity_and_agreement_witness :
    json_loads_text (serialize_model_to_json_str (.user johnDoe))
      = .ok (.jobj (serialize_model_to_dict (.user johnDoe))) ∧
    (validate_model demoEnv (.model (.user johnDoe)) "python"
        = .ok (.user johnDoe) ∧
      validate_model demoEnv
          (.text (serialize_model_to_json_str (.user johnDoe))) "json"
        = validate_model demoEnv
            (.tree (serialize_model_to_dict (.user johnDoe))) "python") :=
  ⟨json_loads_text_dumps_flat _ (serialize_fields_leaf (.user johnDoe)),
   claim_structured_identity_and_agreement demoEnv (.user johnDoe) _ _
     (json_loads_text_dumps_flat _ (serialize_fields_leaf (.user johnDoe)))⟩

/-- C7: any mode string other than `python` and `json` makes
`validate_model` fail, for every value, with the dedicated invalid-mode
`ValueError` (the error the spec taxonomy names `UnsupportedModeError`). -/
theorem claim_invalid_mode_error (env : ImportEnv) (value : PyValue)
    (mode : String) (hp : mode ≠ "python") (hj : mode ≠ "json") :
    validate_model env value mode
      = .error (.valueError ("Invalid mode: " ++ mode)) := by
  rw [validate_model.eq_def, if_neg hp, if_neg hj]

/-- Witness for C7 at the unrecognized mode string `strict`. -/
theorem claim_invalid_mode_error_witness :
    (("strict" : String) ≠ "python" ∧ ("strict" : String) ≠ "json") ∧
    validate_model demoEnv (.model (.user johnDoe)) "strict"
      = .error (.valueError ("Invalid mode: " ++ "strict")) :=
  ⟨⟨by decide, by decide⟩,
   claim_invalid_mode_error demoEnv (.model (.user johnDoe)) "strict"
     (by decide) (by decide)⟩

/-- C8, counterexample: a valid UTF-8 JSON byte string encoding a
registered model — the very bytes `deserialize_model_from_json` decodes
back to the test user — is rejected by `validate_model` under `json` mode
with the unhandled-type `ValueError`, because the `json` branch routes
only `str` and `dict` values and has no `bytes` case. -/
theorem claim_text_mode_rejects_bytes :
    deserialize_model_from_json demoEnv (.byteData userJsonBytes)
      = .ok (.user johnDoe) ∧
    validate_model demoEnv (.byteData userJsonBytes) "json"
      = .error (.valueError "unhandled type for mode json: <class bytes>") := by
  constructor
  · rw [deserialize_model_from_json]
    have hdec : utf8Decode userJsonBytes
        = some (serialize_model_to_json_str (.user johnDoe)).data :=
      utf8Decode_encode (serialize_model_to_json_str (.user johnDoe))
    simp only [json_loads, hdec]
    rw [show String.mk (serialize_model_to_json_str (.user johnDoe)).data
      = serialize_model_to_json_str (.user johnDoe) from rfl]
    rw [serialize_model_to_json_str]
    rw [json_loads_text_dumps_flat _ (serialize_fields_leaf (.user johnDoe))]
    exact roundtrip_dict (.user johnDoe) rfl rfl
  · rfl

/-- C8, amended: under `json` mode, `validate_model` routes text to the
JSON deserializer and attribute trees to the dictionary deserializer, and
rejects every byte value with the unhandled-type `ValueError` — even
though `deserialize_model_from_json` itself accepts byte content. -/
theorem claim_json_mode_routing (env : ImportEnv) (s : String) (d : Dict)
    (b : List Nat) :
    validate_model env (.text s) "json"
      = deserialize_model_from_json env (.text s) ∧
    validate_model env (.tree d) "json"
      = deserialize_model_from_dict env d ∧
    validate_model env (.byteData b) "json"
      = .error (.valueError "unhandled type for mode json: <class bytes>") := by
  refine ⟨?_, ?_, ?_⟩ <;> rfl

/-- C9: a `Location` whose latitude holds the exact decimal `40.785091`
serializes with the latitude rendered as exact decimal text — a JSON
string, not a binary float — and deserializing the serialized form, as a
tree or as JSON text, reproduces the identical exact decimal value. -/
theorem claim_location_exact_decimal {env : ImportEnv} {md : PyModule}
    (name lon : String)
    (himp : import_module env "demo.models" = .ok md)
    (hattr : py_getattr md "Location" = .ok .locationClass) :
    dictGet (serialize_model_to_dict (.location ⟨name, "40.785091", lon⟩))
        "latitude" = some (.jstr "40.785091") ∧
    deserialize_model_from_dict env
        (serialize_model_to_dict (.location ⟨name, "40.785091", lon⟩))
      = .ok (.location ⟨name, "40.785091", lon⟩) ∧
    deserialize_model_from_json env
        (.text (serialize_model_to_json_str
          (.location ⟨name, "40.785091", lon⟩)))
      = .ok (.location ⟨name, "40.785091", lon⟩) :=
  ⟨rfl, roundtrip_dict _ himp hattr, roundtrip_json _ himp hattr⟩

/-- Witness for C9 at the Central Park location of the test suite. -/
theorem claim_location_exact_decimal_witness :
    (import_module demoEnv "demo.models" = .ok demoModule ∧
      py_getattr demoModule "Location" = .ok .locationClass) ∧
    (dictGet (serialize_model_to_dict (.location centralPark)) "latitude"
        = some (.jstr "40.785091") ∧
      deserialize_model_from_dict demoEnv
          (serialize_model_to_dict (.location centralPark))
        = .ok (.location centralPark) ∧
      deserialize_model_from_json demoEnv
          (.text (serialize_model_to_json_str (.location centralPark)))
        = .ok (.location centralPark)) :=
  ⟨⟨rfl, rfl⟩,
   claim_location_exact_decimal "Central Park" "-73.968285" rfl rfl⟩

/-- C10: the from-import on line 11 of `models.py` requests the name
`serialize_model`, which `serialization.py` does not define — it defines
`serialize_model_to_dict` and `serialize_model_to_json_str` — so importing
the models module fails with an import-time error on that name and no
later statement of the module, in particular the definition of the
`Update` envelope class, ever executes. -/
theorem claim_models_import_fails :
    importModelsModule = .error (.importError "serialize_model") ∧
    serializationModuleNames.contains "serialize_model" = false ∧
    serializationModuleNames.contains "serialize_model_to_dict" = true ∧
    serializationModuleNames.contains "serialize_model_to_json_str" = true ∧
    serializationModuleNames.contains "validate_model" = true := by
  refine ⟨?_, ?_, ?_, ?_, ?_⟩ <;> rfl

end Demo
